import Mathlib

/- Shallow embedding of the multi-root search orchestration engine of
   src/fast_search.py (with the near-duplicate revision src/fast_search2.py).
   Python strings are modelled through their character lists, the filesystem
   through explicit inputs (a stat view per path, an outcome per external tool
   invocation), and the fixed-size thread pool through an explicit completion
   order over the static root list. -/

/-- Characters removed by Python str.strip at both ends, modelled as whitespace
    on the character level. -/
def pyStripChars (l : List Char) : List Char :=
  ((l.dropWhile Char.isWhitespace).reverse.dropWhile Char.isWhitespace).reverse

/-- Models Python str.strip. -/
def pyStrip (s : String) : String := ⟨pyStripChars s.data⟩

/-- Models Python str.lower on the ASCII range used by the source. -/
def pyLower (s : String) : String := ⟨s.data.map Char.toLower⟩

/-- Models the choice normalisation choice.strip().lower() of the source. -/
def pyStripLower (s : String) : String := pyLower (pyStrip s)

/-- Models Python str.split with a one-character separator on character lists:
    splitting the empty string yields one empty piece, like "".split(sep). -/
def splitOnChar (c : Char) : List Char → List (List Char)
  | [] => [[]]
  | x :: xs =>
    let r := splitOnChar c xs
    if x == c then [] :: r
    else
      match r with
      | [] => [[x]]
      | h :: t => (x :: h) :: t

/-- Models Python str.split with a one-character separator on strings. -/
def splitOnStr (c : Char) (s : String) : List String :=
  (splitOnChar c s.data).map (fun l => ⟨l⟩)

/-- Models raw.replace of a single space by the empty string: every space
    character is removed. -/
def removeSpaces (s : String) : String := ⟨s.data.filter (fun c => c != ' ')⟩

/-- Tests whether a string starts with the given character. -/
def startsWithChar (c : Char) (s : String) : Bool :=
  match s.data with
  | [] => false
  | x :: _ => x == c

/-- Models the stdout processing of run_cmd in src/fast_search.py line 505:
    strip the whole captured output, split it into lines, strip each line and
    keep only the non-empty ones.  The source uses splitlines, which drops a
    final empty piece; here the surrounding strip and the non-empty filter make
    the two splitting styles agree. -/
def processStdout (out : String) : List String :=
  ((splitOnStr '\n' (pyStrip out)).map pyStrip).filter (fun l => l != "")

/-- Outcome of one external subprocess invocation, as observed by run_cmd of
    src/fast_search.py lines 495 to 515.  Undecodable bytes never raise because
    the source decodes permissively, so they appear as a completed outcome whose
    text carries replacement characters; timeout and every other raised
    exception are separate constructors. -/
inductive CmdOutcome where
  | completed (exitCode : Int) (stdout : String)
  | timeout
  | raisedError

/-- Models run_cmd from src/fast_search.py: the trimmed non-empty stdout lines
    of a completed process are returned without consulting its exit code, and
    the empty list is returned on timeout or on any raised exception. -/
def runCommand : CmdOutcome → List String
  | CmdOutcome.completed _ out => processStdout out
  | CmdOutcome.timeout => []
  | CmdOutcome.raisedError => []

/-- Models pathlib PurePath parts for POSIX style paths, as used by
    should_exclude in src/fast_search.py line 658: empty and single-dot
    components vanish and an absolute path carries "/" as its first part. -/
def pyParts (s : String) : List String :=
  let comps := (splitOnStr '/' s).filter (fun c => c != "" && c != ".")
  if startsWithChar '/' s then "/" :: comps else comps

/-- Fuelled glob matching of one pattern component against one name component,
    following the fnmatch translation that pathlib applies per component: a star
    matches any character run, a question mark matches one character, every
    other character matches itself.  Bracket classes do not occur in this
    development.  Each recursive call shrinks pattern plus name, so fuel equal
    to their combined length plus one is always sufficient; the callers below
    pass exactly that bound. -/
def globMatchFuel : Nat → List Char → List Char → Bool
  | 0, _, _ => false
  | _ + 1, [], [] => true
  | _ + 1, [], _ :: _ => false
  | f + 1, p :: ps, name =>
    if p == '*' then
      match name with
      | [] => globMatchFuel f ps []
      | _ :: cs => globMatchFuel f ps name || globMatchFuel f (p :: ps) cs
    else
      match name with
      | [] => false
      | c :: cs => (p == '?' || p == c) && globMatchFuel f ps cs

/-- Glob matching of one pattern component against one name component. -/
def fnmatchStr (pat name : String) : Bool :=
  globMatchFuel (pat.data.length + name.data.length + 1) pat.data name.data

/-- Componentwise glob matching of reversed part lists, mirroring how
    PurePath.match walks pattern and path parts from the right. -/
def matchRight : List String → List String → Bool
  | [], _ => true
  | _ :: _, [] => false
  | p :: ps, s :: ss => fnmatchStr p s && matchRight ps ss

/-- Models PurePath.match as called on a hit path in should_exclude: a relative
    pattern must glob-match the trailing components of the path, an absolute
    pattern must glob-match the whole path.  An empty pattern raises ValueError
    in the source, which should_exclude catches and treats as no match, hence
    false here. -/
def pathMatch (path pattern : String) : Bool :=
  if (pyParts pattern).isEmpty then false
  else if startsWithChar '/' pattern then
    ((pyParts pattern).length == (pyParts path).length) &&
      matchRight (pyParts pattern).reverse (pyParts path).reverse
  else matchRight (pyParts pattern).reverse (pyParts path).reverse

/-- Models should_exclude from src/fast_search.py lines 654 to 666: a hit is
    excluded when some exclude entry equals one of its path parts or matches it
    in the sense of PurePath.match. -/
def should_exclude (path : String) (exclude : List String) : Bool :=
  exclude.any (fun pattern => (pyParts path).contains pattern || pathMatch path pattern)

/-- Stat metadata of one path: size in bytes, modification and creation
    timestamps. -/
structure FileStat where
  size : Nat
  mtime : Int
  ctime : Int

/-- Models the SearchFilters dataclass of src/fast_search.py. -/
structure SearchFilters where
  min_size : Option Nat
  max_size : Option Nat
  modified_after : Option Int
  modified_before : Option Int
  created_after : Option Int
  created_before : Option Int

/-- Guard for stat.st_size < filters.min_size under Python truthiness: None and
    zero are falsy, so a zero bound never rejects. -/
def sizeGuardLt (o : Option Nat) (size : Nat) : Bool :=
  match o with
  | none => false
  | some m => (m != 0) && decide (size < m)

/-- Guard for stat.st_size > filters.max_size under Python truthiness. -/
def sizeGuardGt (o : Option Nat) (size : Nat) : Bool :=
  match o with
  | none => false
  | some m => (m != 0) && decide (m < size)

/-- Guard for a timestamp strictly below a lower bound; a datetime object is
    always truthy in Python, so only None disables the check. -/
def dateGuardLt (o : Option Int) (t : Int) : Bool :=
  match o with
  | none => false
  | some b => decide (t < b)

/-- Guard for a timestamp strictly above an upper bound. -/
def dateGuardGt (o : Option Int) (t : Int) : Bool :=
  match o with
  | none => false
  | some b => decide (b < t)

/-- Models apply_filters from src/fast_search.py lines 669 to 700.  The stat
    view is none when the path does not exist, is not a regular file, or stat
    raised; in each of these cases the source returns True, and it also returns
    True from the surrounding exception handler, so the none branch keeps the
    hit. -/
def apply_filters (fl : SearchFilters) (st : Option FileStat) : Bool :=
  match st with
  | none => true
  | some s =>
    if sizeGuardLt fl.min_size s.size then false
    else if sizeGuardGt fl.max_size s.size then false
    else if dateGuardLt fl.modified_after s.mtime then false
    else if dateGuardGt fl.modified_before s.mtime then false
    else if dateGuardLt fl.created_after s.ctime then false
    else if dateGuardGt fl.created_before s.ctime then false
    else true

/-- First-occurrence deduplication with an explicit seen accumulator, modelling
    list(dict.fromkeys(results)) of src/fast_search.py line 800: the first
    occurrence of each string is kept in order. -/
def pyDedupAux (seen : List String) : List String → List String
  | [] => []
  | a :: l => if a ∈ seen then pyDedupAux seen l else a :: pyDedupAux (a :: seen) l

/-- Models list(dict.fromkeys(results)). -/
def pyDedup (l : List String) : List String := pyDedupAux [] l

/-- Models list(dict.fromkeys(results))[:max_res], the deduplicate-and-cap
    stage applied to every merged result list. -/
def dedupCap (maxRes : Nat) (l : List String) : List String := (pyDedup l).take maxRes

/-- Models the results.extend loop over as_completed futures in
    src/fast_search.py lines 787 to 797: per-root batches are concatenated in
    worker completion order, given here as the list of root indices in the
    order their futures completed. -/
def mergeCompleted (hitsPerRoot : List (List String)) (completion : List Nat) : List String :=
  (completion.map (fun i => hitsPerRoot.getD i [])).flatten

/-- Models the per-root worker body search_path of smart_search_filename: the
    tool invocation outcome is turned into hit lines and filtered by exclusion
    patterns and metadata filters. -/
def perRootHits (excl : List String) (fl : SearchFilters) (statOf : String → Option FileStat)
    (rootOutcomes : List CmdOutcome) : List (List String) :=
  rootOutcomes.map (fun oc =>
    (runCommand oc).filter (fun h => !(should_exclude h excl) && apply_filters fl (statOf h)))

/-- The deduplicated, capped result of the common-folder pass, as computed at
    src/fast_search.py line 800. -/
def firstPassResult (maxRes : Nat) (hitsPerRoot : List (List String))
    (completion : List Nat) : List String :=
  dedupCap maxRes (mergeCompleted hitsPerRoot completion)

/-- Choice strings that trigger the full-volume pass in smart_search_filename
    at src/fast_search.py line 809. -/
def affirmFilename : List String := ["y", "yes", "all"]

/-- Choice strings that trigger the full-volume pass in smart_search_content
    at src/fast_search.py line 917. -/
def affirmContent : List String := ["y", "yes"]

/-- Models the body of one full-volume drive iteration, src/fast_search.py
    lines 820 to 828: drive hits that are not already collected, not excluded
    and pass the metadata filters are appended to the accumulated results. -/
def secondPassStep (excl : List String) (fl : SearchFilters)
    (statOf : String → Option FileStat) (results : List String)
    (driveHits : List String) : List String :=
  results ++ driveHits.filter (fun h =>
    !(results.contains h) && !(should_exclude h excl) && apply_filters fl (statOf h))

/-- Models the full-volume drive loop with its early break once the running
    length reaches the budget, src/fast_search.py lines 815 to 830. -/
def secondPassLoop (maxRes : Nat) (excl : List String) (fl : SearchFilters)
    (statOf : String → Option FileStat) : List CmdOutcome → List String → List String
  | [], results => results
  | d :: ds, results =>
    let results2 := secondPassStep excl fl statOf results (runCommand d)
    if maxRes ≤ results2.length then results2
    else secondPassLoop maxRes excl fl statOf ds results2

/-- Models the escalation tail shared by smart_search_filename (lines 803 to
    833) and smart_search_content (lines 913 to 937): when the first pass is
    already at budget its result is returned, otherwise the normalised caller
    choice is consulted and only an affirmative answer starts the full-volume
    loop, whose accumulated list is deduplicated and capped again. -/
def escalate (affirm : List String) (maxRes : Nat) (firstPass : List String)
    (choice : String) (excl : List String) (fl : SearchFilters)
    (statOf : String → Option FileStat) (driveOutcomes : List CmdOutcome) : List String :=
  if maxRes ≤ firstPass.length then firstPass
  else if pyStripLower choice ∈ affirm then
    dedupCap maxRes (secondPassLoop maxRes excl fl statOf driveOutcomes firstPass)
  else firstPass

/-- Models smart_search_filename of src/fast_search.py lines 721 to 833 over an
    explicit environment: one tool outcome per common root, a completion order
    for the worker pool, the interactive escalation choice, and one tool
    outcome per drive for the optional full-volume pass. -/
def smart_search_filename (maxRes : Nat) (excl : List String) (fl : SearchFilters)
    (statOf : String → Option FileStat) (rootOutcomes : List CmdOutcome)
    (completion : List Nat) (choice : String) (driveOutcomes : List CmdOutcome) : List String :=
  escalate affirmFilename maxRes
    (firstPassResult maxRes (perRootHits excl fl statOf rootOutcomes) completion)
    choice excl fl statOf driveOutcomes

/-- Accepts the character tail of a Python integer literal after its first
    digit: further digits, with single underscores allowed between digits. -/
def underscoreDigits : List Char → Bool
  | [] => true
  | '_' :: [] => false
  | '_' :: c :: cs => c.isDigit && underscoreDigits cs
  | c :: cs => c.isDigit && underscoreDigits cs

/-- Numeric value of a digit and underscore sequence, underscores skipped. -/
def digitsToNat (l : List Char) : Nat :=
  l.foldl (fun acc c => if c == '_' then acc else acc * 10 + (c.toNat - '0'.toNat)) 0

/-- Models Python int applied to a string token: surrounding whitespace is
    stripped, one optional sign is allowed, then decimal digits with single
    interior underscores; anything else raises ValueError, modelled as none. -/
def pyIntOfString (s : String) : Option Int :=
  let t := pyStrip s
  let signed : Int × String :=
    if startsWithChar '-' t then (-1, ⟨t.data.drop 1⟩)
    else if startsWithChar '+' t then (1, ⟨t.data.drop 1⟩)
    else (1, t)
  match (signed.snd).data with
  | [] => none
  | c :: cs =>
    if c.isDigit && underscoreDigits cs then
      some (signed.fst * (digitsToNat (signed.snd).data : Int))
    else none

/-- Models Python range(s, e + 1) as a list of integers. -/
def rangeClosed (s e : Int) : List Int :=
  (List.range (e + 1 - s).toNat).map (fun k => s + k)

/-- Models the token loop of the selection parser, src/fast_search.py lines
    981 to 994: spaces are removed, the string is split on commas, a token with
    a dash is parsed as an inclusive range when it splits into exactly two
    integers, any other token as a single integer, and every failure is
    silently skipped.  The Python set is modelled as the accumulated list of
    collected integers, deduplicated and sorted by the caller below. -/
def selectionRawSet (raw : String) : List Int :=
  ((splitOnStr ',' (removeSpaces raw)).foldl (fun acc part =>
    if part.data.contains '-' then
      match splitOnStr '-' part with
      | [a, b] =>
        match pyIntOfString a, pyIntOfString b with
        | some s, some e => acc ++ rangeClosed s e
        | _, _ => acc
      | _ => acc
    else
      match pyIntOfString part with
      | some v => acc ++ [v]
      | none => acc)) []

/-- Models sorted(selected) filtered to the valid index window, src/fast_search.py
    line 996: the defensive bound check keeps exactly the indices in [1, n]. -/
def selection_indices (raw : String) (n : Nat) : List Int :=
  ((selectionRawSet raw).dedup.insertionSort (· ≤ ·)).filter
    (fun i => decide (1 ≤ i) && decide (i ≤ (n : Int)))

/-- Follows the spec glossary: the canonical path is the absolute,
    alias-resolved form of a path.  Alias resolution is represented by a finite
    table of directory aliases; a path below an aliased prefix canonicalises to
    the target spelling.  The source never computes this form, which is what
    claim C2 is measured against. -/
def specCanonicalPath (aliases : List (String × String)) (p : String) : String :=
  match aliases.find? (fun ab => ab.fst.data.isPrefixOf p.data) with
  | some ab => ⟨ab.snd.data ++ p.data.drop ab.fst.data.length⟩
  | none => p

/-- Follows the spec wording of the exclusion predicate: the entry matches the
    whole path as a glob with star and question mark wildcards under standard
    filesystem glob semantics, where wildcards do not cross the separator.
    Concretely the entry and the path must agree on absoluteness, have the same
    number of components, and glob-match componentwise; an entry without
    components matches nothing, as pathlib rejects empty patterns. -/
def specWholePathGlob (pattern path : String) : Bool :=
  !(pyParts pattern).isEmpty && (startsWithChar '/' pattern == startsWithChar '/' path) &&
    ((pyParts pattern).length == (pyParts path).length) &&
    matchRight (pyParts pattern).reverse (pyParts path).reverse

/-- Follows the spec wording of claim C7: excluded exactly when some entry
    equals one path segment or matches the whole path as a glob. -/
def specExcluded (path : String) (exclude : List String) : Bool :=
  exclude.any (fun pattern => (pyParts path).contains pattern || specWholePathGlob pattern path)

/-- Filter set with every bound absent, used by concrete scenarios. -/
def noFilters : SearchFilters := SearchFilters.mk none none none none none none

/-- Stat view of a filesystem where no candidate can be stat-ed; under the
    fail-open contract every hit passes the metadata filter. -/
def statNone : String → Option FileStat := fun _ => none

/- Helper lemmas about the deduplicate-and-cap stage. -/

/-- Membership in the accumulator-based first-occurrence deduplication. -/
theorem pyDedupAux_mem (l : List String) : ∀ (seen : List String) (x : String),
    x ∈ pyDedupAux seen l ↔ x ∈ l ∧ x ∉ seen := by
  induction l with
  | nil => intro seen x; simp [pyDedupAux]
  | cons a l ih =>
    intro seen x
    by_cases ha : a ∈ seen
    · simp only [pyDedupAux, if_pos ha, ih, List.mem_cons]
      constructor
      · rintro ⟨hx, hns⟩; exact ⟨Or.inr hx, hns⟩
      · rintro ⟨hx | hx, hns⟩
        · exact absurd (hx ▸ ha) hns
        · exact ⟨hx, hns⟩
    · simp only [pyDedupAux, if_neg ha, List.mem_cons, ih, not_or]
      constructor
      · rintro (rfl | ⟨hx, _, hns⟩)
        · exact ⟨Or.inl rfl, ha⟩
        · exact ⟨Or.inr hx, hns⟩
      · rintro ⟨rfl | hx, hns⟩
        · exact Or.inl rfl
        · by_cases hxa : x = a
          · exact Or.inl hxa
          · exact Or.inr ⟨hx, hxa, hns⟩

/-- The deduplicated list keeps exactly the original members. -/
theorem pyDedup_mem (l : List String) (x : String) : x ∈ pyDedup l ↔ x ∈ l := by
  simp [pyDedup, pyDedupAux_mem]

/-- The accumulator-based deduplication never repeats an element. -/
theorem pyDedupAux_nodup (l : List String) : ∀ seen : List String, (pyDedupAux seen l).Nodup := by
  induction l with
  | nil => intro seen; simp [pyDedupAux]
  | cons a l ih =>
    intro seen
    by_cases ha : a ∈ seen
    · simpa [pyDedupAux, ha] using ih seen
    · simp only [pyDedupAux, if_neg ha, List.nodup_cons, pyDedupAux_mem]
      exact ⟨by simp, ih (a :: seen)⟩

/-- The deduplicated list never repeats an element. -/
theorem pyDedup_nodup (l : List String) : (pyDedup l).Nodup := pyDedupAux_nodup l []

/-- Deduplication is the identity on a list without repetitions whose elements
    avoid the accumulator. -/
theorem pyDedupAux_eq_self (l : List String) : ∀ seen : List String, l.Nodup →
    (∀ x ∈ l, x ∉ seen) → pyDedupAux seen l = l := by
  induction l with
  | nil => intro seen _ _; rfl
  | cons a l ih =>
    intro seen hnd hdisj
    have ha : a ∉ seen := hdisj a (List.mem_cons_self a l)
    have hnd2 := List.nodup_cons.mp hnd
    simp only [pyDedupAux, if_neg ha]
    refine congrArg (a :: ·) (ih (a :: seen) hnd2.2 ?_)
    intro x hx
    simp only [List.mem_cons, not_or]
    exact ⟨fun he => hnd2.1 (he ▸ hx), hdisj x (List.mem_cons_of_mem a hx)⟩

/-- Deduplication is the identity on a list without repetitions. -/
theorem pyDedup_eq_self (l : List String) (h : l.Nodup) : pyDedup l = l :=
  pyDedupAux_eq_self l [] h (by simp)

/-- Deduplication does not change the underlying set of entries. -/
theorem pyDedup_toFinset (l : List String) : (pyDedup l).toFinset = l.toFinset := by
  ext x; simp [List.mem_toFinset, pyDedup_mem]

/-- The length of the deduplicated list counts the distinct entries. -/
theorem pyDedup_length (l : List String) : (pyDedup l).length = l.toFinset.card := by
  rw [← pyDedup_toFinset, List.toFinset_card_of_nodup (pyDedup_nodup l)]

/-- Lists that are permutations of each other have the same entry set. -/
theorem toFinset_eq_of_perm (l1 l2 : List String) (h : List.Perm l1 l2) :
    l1.toFinset = l2.toFinset := by
  ext x; simp [List.mem_toFinset, h.mem_iff]

/-- A prefix of a list without repetitions has no repetitions. -/
theorem take_nodup (l : List String) (n : Nat) (h : l.Nodup) : (l.take n).Nodup :=
  List.Nodup.sublist (List.take_sublist n l) h

/- Helper lemmas about the completion-order merge. -/

/-- Permuting the outer list of batches permutes the concatenation. -/
theorem perm_flatten (l1 l2 : List (List String)) (h : List.Perm l1 l2) :
    List.Perm l1.flatten l2.flatten := by
  induction h with
  | nil => exact List.Perm.refl _
  | cons x _ ih => simpa using ih.append_left x
  | swap x y l =>
    simpa [List.flatten_cons, List.append_assoc] using
      ((List.perm_append_comm :
        List.Perm (y ++ x) (x ++ y)).append_right (List.flatten l))
  | trans _ _ ih1 ih2 => exact ih1.trans ih2

/-- Permuting the completion order permutes the merged hit list. -/
theorem mergeCompleted_perm (hitsPerRoot : List (List String)) (s t : List Nat)
    (h : List.Perm s t) :
    List.Perm (mergeCompleted hitsPerRoot s) (mergeCompleted hitsPerRoot t) :=
  perm_flatten _ _ (h.map _)

/-- Unfolding equation of the merge over one completed root. -/
theorem mergeCompleted_cons (h : List (List String)) (j : Nat) (cs : List Nat) :
    mergeCompleted h (j :: cs) = h.getD j [] ++ mergeCompleted h cs := rfl

/-- Reading any position of a batch list whose position i was emptied. -/
theorem getD_set_nil (l : List (List String)) :
    ∀ (i j : Nat), (l.set i []).getD j [] = if j = i then [] else l.getD j [] := by
  induction l with
  | nil =>
    intro i j
    simp only [List.set_nil]
    split <;> simp [List.getD]
  | cons a l ih =>
    intro i j
    cases i with
    | zero =>
      cases j with
      | zero => simp
      | succ j => simp
    | succ i =>
      cases j with
      | zero => simp
      | succ j => simpa using ih i j

/-- Emptying the batch of one root is the same as dropping that root from the
    completion order. -/
theorem mergeCompleted_set_nil (h : List (List String)) (i : Nat) :
    ∀ completion : List Nat,
      mergeCompleted (h.set i []) completion
        = mergeCompleted h (completion.filter (fun j => j != i)) := by
  intro completion
  induction completion with
  | nil => rfl
  | cons j cs ih =>
    rw [mergeCompleted_cons, getD_set_nil, List.filter_cons]
    by_cases hj : j = i
    · simp [hj, ih]
    · simp [hj, mergeCompleted_cons, ih]

/- Helper lemmas about selection parsing. -/

/-- A weakly sorted list without repetitions is strictly sorted. -/
theorem sorted_le_nodup_pairwise_lt (l : List Int) (hs : List.Sorted (· ≤ ·) l)
    (hn : l.Nodup) : l.Pairwise (· < ·) :=
  (hs.and hn).imp (fun h => lt_of_le_of_ne h.1 h.2)

/-- The branch of pathlib matching used by the spec reading: a whole-path glob
    match implies a PurePath.match success. -/
theorem pathMatch_of_specWholePathGlob (path pattern : String)
    (h : specWholePathGlob pattern path = true) : pathMatch path pattern = true := by
  unfold specWholePathGlob at h
  simp only [Bool.and_eq_true, Bool.not_eq_true', beq_iff_eq] at h
  obtain ⟨⟨⟨hne, _⟩, hlen⟩, hmr⟩ := h
  unfold pathMatch
  rw [hne]
  simp only [Bool.false_eq_true, if_false]
  split
  · simp [hlen, hmr]
  · exact hmr

/- Claim theorems. -/

/-- Claim C1, counterexample: with a fixed root order and fixed per-root tool
    outputs, two completion orders that are both permutations of the two root
    indices yield ResultSets in different orders, because the coordinator
    extends the result list in as_completed order rather than reassembling the
    batches in root order. -/
theorem C1_counterexample :
    List.Perm [0, 1] (List.range 2) ∧ List.Perm [1, 0] (List.range 2) ∧
    smart_search_filename 10 [] noFilters statNone
        [CmdOutcome.completed 0 "a", CmdOutcome.completed 0 "b"] [0, 1] "n" [] = ["a", "b"] ∧
    smart_search_filename 10 [] noFilters statNone
        [CmdOutcome.completed 0 "a", CmdOutcome.completed 0 "b"] [1, 0] "n" [] = ["b", "a"] ∧
    (["a", "b"] : List String) ≠ ["b", "a"] :=
  ⟨by decide, by decide, by decide, by decide, by decide⟩

/-- Claim C1 as amended: batches are merged in worker completion order, so with
    fixed roots and fixed per-root outputs the first-pass ResultSet is the same
    set of entries, with the same length, across completion orders whenever the
    number of distinct merged hits stays within maxResults; the order of the
    entries follows completion order and may differ. -/
theorem C1_same_content_across_completion_orders (hitsPerRoot : List (List String))
    (s t : List Nat) (maxRes : Nat) (hperm : List.Perm s t)
    (hlen : (pyDedup (mergeCompleted hitsPerRoot s)).length ≤ maxRes) :
    (firstPassResult maxRes hitsPerRoot s).toFinset
      = (firstPassResult maxRes hitsPerRoot t).toFinset ∧
    (firstPassResult maxRes hitsPerRoot s).length
      = (firstPassResult maxRes hitsPerRoot t).length := by
  have hm := mergeCompleted_perm hitsPerRoot s t hperm
  have hfin : (mergeCompleted hitsPerRoot s).toFinset
      = (mergeCompleted hitsPerRoot t).toFinset := toFinset_eq_of_perm _ _ hm
  have hlen2 : (pyDedup (mergeCompleted hitsPerRoot t)).length ≤ maxRes := by
    rw [pyDedup_length, ← hfin, ← pyDedup_length]; exact hlen
  have e1 : firstPassResult maxRes hitsPerRoot s = pyDedup (mergeCompleted hitsPerRoot s) := by
    unfold firstPassResult dedupCap
    exact List.take_of_length_le hlen
  have e2 : firstPassResult maxRes hitsPerRoot t = pyDedup (mergeCompleted hitsPerRoot t) := by
    unfold firstPassResult dedupCap
    exact List.take_of_length_le hlen2
  constructor
  · rw [e1, e2, pyDedup_toFinset, pyDedup_toFinset, hfin]
  · rw [e1, e2, pyDedup_length, pyDedup_length, hfin]

/-- Claim C1 witness: the amended theorem evaluated on two concrete completion
    orders over two roots. -/
theorem C1_witness :
    (firstPassResult 10 [["a"], ["b"]] [0, 1]).toFinset
      = (firstPassResult 10 [["a"], ["b"]] [1, 0]).toFinset ∧
    (firstPassResult 10 [["a"], ["b"]] [0, 1]).length
      = (firstPassResult 10 [["a"], ["b"]] [1, 0]).length :=
  C1_same_content_across_completion_orders [["a"], ["b"]] [0, 1] [1, 0] 10
    (by decide) (by decide)

/-- Claim C2, counterexample: the final ResultSet of a concrete declined-
    escalation run keeps two distinct spellings of the same file, one through
    an aliased directory, so two entries share a canonical path; deduplication
    at line 800 compares raw strings only. -/
theorem C2_counterexample :
    smart_search_filename 500 [] noFilters statNone
        [CmdOutcome.completed 0 "/ln/f\n/real/f"] [0] "n" [] = ["/ln/f", "/real/f"] ∧
    specCanonicalPath [("/ln", "/real")] "/ln/f"
        = specCanonicalPath [("/ln", "/real")] "/real/f" ∧
    ("/ln/f" : String) ≠ "/real/f" :=
  ⟨by decide, by decide, by decide⟩

/-- Claim C2 as amended: every deduplicated-and-capped result list has length
    at most the effective maxResults and no two entries that are identical path
    strings; uniqueness is by exact string, not by canonical path. -/
theorem C2_capped_and_nodup :
    ∀ (maxRes : Nat) (L : List String),
      (dedupCap maxRes L).length ≤ maxRes ∧ (dedupCap maxRes L).Nodup := by
  intro n L
  refine ⟨?_, take_nodup _ _ (pyDedup_nodup L)⟩
  rw [dedupCap, List.length_take]
  exact min_le_left _ _

/-- Claim C3: when the caller answer, stripped and lowercased, is not one of
    the affirmative directives, no full-volume pass runs and the final
    ResultSet equals exactly the first-pass result, for the filename search as
    a whole and for the content-search escalation tail. -/
theorem C3_decline_keeps_first_pass :
    (∀ (maxRes : Nat) (excl : List String) (fl : SearchFilters)
       (statOf : String → Option FileStat) (rootOutcomes : List CmdOutcome)
       (completion : List Nat) (choice : String) (driveOutcomes : List CmdOutcome),
       pyStripLower choice ∉ affirmFilename →
       smart_search_filename maxRes excl fl statOf rootOutcomes completion choice driveOutcomes
         = firstPassResult maxRes (perRootHits excl fl statOf rootOutcomes) completion) ∧
    (∀ (maxRes : Nat) (firstPass : List String) (choice : String) (excl : List String)
       (fl : SearchFilters) (statOf : String → Option FileStat)
       (driveOutcomes : List CmdOutcome),
       pyStripLower choice ∉ affirmContent →
       escalate affirmContent maxRes firstPass choice excl fl statOf driveOutcomes
         = firstPass) := by
  constructor
  · intro maxRes excl fl statOf ro comp choice dr hch
    simp [smart_search_filename, escalate, hch]
  · intro maxRes fp choice excl fl statOf dr hch
    simp [escalate, hch]

/-- Claim C3 witness: three unique first-pass hits with maxResults 500 and a
    declining answer yield exactly those three entries in discovery order. -/
theorem C3_witness :
    smart_search_filename 500 [] noFilters statNone
        [CmdOutcome.completed 0 "a\nb\nc"] [0] "n" [] = ["a", "b", "c"] := by
  rw [C3_decline_keeps_first_pass.1 500 [] noFilters statNone
      [CmdOutcome.completed 0 "a\nb\nc"] [0] "n" [] (by decide)]
  decide

/-- Claim C4, counterexample: a tool that exits non-zero after printing a line
    does not yield an empty hit list; run_cmd never consults the exit code and
    returns the captured stdout lines. -/
theorem C4_counterexample :
    runCommand (CmdOutcome.completed 2 "/tmp/partial.txt") = ["/tmp/partial.txt"] ∧
    runCommand (CmdOutcome.completed 2 "/tmp/partial.txt") ≠ ([] : List String) :=
  ⟨by decide, by decide⟩

/-- Claim C4 as amended: a timeout or a raised exception is swallowed locally
    and yields zero hits; a completed invocation yields its stdout lines
    whatever the exit code, so a non-zero exit with empty output yields zero
    hits but a non-zero exit with output keeps the lines; and emptying one
    root's batch gives the same merged, deduplicated, capped result as if that
    root had never completed, so a failing root never removes or blocks other
    roots' hits. -/
theorem C4_failure_semantics :
    runCommand CmdOutcome.timeout = [] ∧
    runCommand CmdOutcome.raisedError = [] ∧
    (∀ (c1 c2 : Int) (out : String),
      runCommand (CmdOutcome.completed c1 out) = runCommand (CmdOutcome.completed c2 out)) ∧
    (∀ (hitsPerRoot : List (List String)) (i : Nat) (completion : List Nat) (maxRes : Nat),
      firstPassResult maxRes (hitsPerRoot.set i []) completion
        = firstPassResult maxRes hitsPerRoot (completion.filter (fun j => j != i))) := by
  refine ⟨rfl, rfl, fun c1 c2 out => rfl, fun h i comp n => ?_⟩
  unfold firstPassResult
  rw [mergeCompleted_set_nil]

/-- Claim C5: the selection parser returns a strictly ascending, duplicate-free
    list of indices all in the window from one to the result count, malformed
    tokens are skipped without aborting the rest, and the four cited examples
    evaluate as the spec states. -/
theorem C5_selection_properties :
    (∀ (raw : String) (n : Nat),
       (selection_indices raw n).Pairwise (· < ·) ∧
       ∀ i ∈ selection_indices raw n, 1 ≤ i ∧ i ≤ (n : Int)) ∧
    selection_indices "1,3-5,7" 10 = [1, 3, 4, 5, 7] ∧
    selection_indices "0,11" 10 = [] ∧
    selection_indices "5-2" 10 = [] ∧
    selection_indices "" 10 = [] := by
  refine ⟨fun raw n => ⟨?_, ?_⟩, by decide, by decide, by decide, by decide⟩
  · have hperm := List.perm_insertionSort (· ≤ ·) (selectionRawSet raw).dedup
    have hnd : ((selectionRawSet raw).dedup.insertionSort (· ≤ ·)).Nodup :=
      hperm.nodup_iff.mpr (List.nodup_dedup _)
    have hs := List.sorted_insertionSort (· ≤ ·) (selectionRawSet raw).dedup
    exact (sorted_le_nodup_pairwise_lt _ hs hnd).filter _
  · intro i hi
    have h2 := (List.mem_filter.mp hi).2
    simp only [Bool.and_eq_true, decide_eq_true_eq] at h2
    exact h2

/-- Claim C5 witness: the bound statement instantiated at index one of the
    first cited example. -/
theorem C5_witness : 1 ≤ (1 : Int) ∧ (1 : Int) ≤ ((10 : Nat) : Int) :=
  (C5_selection_properties.1 "1,3-5,7" 10).2 1 (by decide)

/-- Claim C6: a candidate whose metadata cannot be read at filter time is kept
    by the metadata filter, whatever the active filters are. -/
theorem C6_stat_failure_fail_open : ∀ fl : SearchFilters, apply_filters fl none = true :=
  fun _ => rfl

/-- Claim C7, counterexample: the exclusion predicate is not exactly segment
    equality or whole-path glob match; the relative entry a/*.txt matches only
    the trailing components of /root/a/f.txt, yet the code excludes the hit,
    while the spec predicate does not. -/
theorem C7_counterexample :
    should_exclude "/root/a/f.txt" ["a/*.txt"] = true ∧
    specExcluded "/root/a/f.txt" ["a/*.txt"] = false :=
  ⟨by decide, by decide⟩

/-- Claim C7 as amended: a hit is excluded when some exclude entry exactly
    equals one of its path segments, or when the entry glob-matches the
    trailing segments of the path, of which a whole-path glob match with equal
    absoluteness is a special case; the two cited examples behave as the spec
    states. -/
theorem C7_exclusion_predicate (path pattern : String) (exclude : List String)
    (hmem : pattern ∈ exclude) :
    (pattern ∈ pyParts path → should_exclude path exclude = true) ∧
    (specWholePathGlob pattern path = true → should_exclude path exclude = true) ∧
    should_exclude "/home/u/project/node_modules/x.js" ["node_modules"] = true ∧
    should_exclude "a.tmp" ["*.tmp"] = true ∧
    should_exclude "a.tmpx" ["*.tmp"] = false := by
  refine ⟨?_, ?_, by decide, by decide, by decide⟩
  · intro hseg
    apply List.any_eq_true.mpr
    refine ⟨pattern, hmem, ?_⟩
    simp
    exact Or.inl hseg
  · intro hglob
    apply List.any_eq_true.mpr
    refine ⟨pattern, hmem, ?_⟩
    simp [pathMatch_of_specWholePathGlob path pattern hglob]

/-- Claim C7 witness: the amended theorem applied to the tmp-suffix example,
    discharging the membership and whole-path-glob hypotheses concretely. -/
theorem C7_witness : should_exclude "a.tmp" ["*.tmp"] = true :=
  (C7_exclusion_predicate "a.tmp" "*.tmp" ["*.tmp"] (by decide)).2.1 (by decide)

/-- Claim C8: with minSize 1000 and maxSize 2000 both present, the metadata
    filter keeps stat-able regular files of exactly 1000 and exactly 2000
    bytes and rejects files of 999 and 2001 bytes, so both bounds are
    inclusive. -/
theorem C8_inclusive_size_bounds :
    apply_filters (SearchFilters.mk (some 1000) (some 2000) none none none none)
        (some (FileStat.mk 1000 0 0)) = true ∧
    apply_filters (SearchFilters.mk (some 1000) (some 2000) none none none none)
        (some (FileStat.mk 2000 0 0)) = true ∧
    apply_filters (SearchFilters.mk (some 1000) (some 2000) none none none none)
        (some (FileStat.mk 999 0 0)) = false ∧
    apply_filters (SearchFilters.mk (some 1000) (some 2000) none none none none)
        (some (FileStat.mk 2001 0 0)) = false :=
  ⟨by decide, by decide, by decide, by decide⟩

/-- Claim C9: the deduplicate-and-cap operation is idempotent; feeding its
    output back through it returns the output unchanged, for every filtered
    hit sequence and every cap. -/
theorem C9_dedup_cap_idempotent :
    ∀ (L : List String) (maxRes : Nat), dedupCap maxRes (dedupCap maxRes L) = dedupCap maxRes L := by
  intro L n
  show dedupCap n ((pyDedup L).take n) = (pyDedup L).take n
  rw [dedupCap, pyDedup_eq_self _ (take_nodup _ _ (pyDedup_nodup L)), List.take_take,
    Nat.min_self]

/-- Claim C10: a size bound equal to zero is treated as absent because the
    source tests the truthiness of each bound before comparing; a zero minimum
    skips the minimum check and a zero maximum skips the maximum check, so a
    zero maximum does not exclude every file. -/
theorem C10_zero_size_bound_ignored :
    ∀ (fl : SearchFilters) (st : Option FileStat),
      apply_filters (SearchFilters.mk (some 0) fl.max_size fl.modified_after
          fl.modified_before fl.created_after fl.created_before) st
        = apply_filters (SearchFilters.mk none fl.max_size fl.modified_after
          fl.modified_before fl.created_after fl.created_before) st ∧
      apply_filters (SearchFilters.mk fl.min_size (some 0) fl.modified_after
          fl.modified_before fl.created_after fl.created_before) st
        = apply_filters (SearchFilters.mk fl.min_size none fl.modified_after
          fl.modified_before fl.created_after fl.created_before) st := by
  intro fl st
  cases st with
  | none => exact ⟨rfl, rfl⟩
  | some s => constructor <;> simp [apply_filters, sizeGuardLt, sizeGuardGt]
